import Mathlib

/-!
Verification of the Tegra210 UART driver (`src/libtegra/src/uart/mod.rs`)
through a shallow embedding of its register-level behaviour.

Machine integers: the driver works on `u32` values; we model them as `Nat`
with an explicit `% U32` wherever the Rust arithmetic could wrap.  Register
blocks are modelled by `RegState`, one `Nat` per 32-bit register, and the
driver operations become state transformers on `RegState`.  Busy-wait loops
poll a single register bit and perform no writes, so against a backend whose
registers hold static values a loop returns iff its bit is set in that state;
the `...Completes` functions capture exactly that condition.
-/

namespace Uart

/-- Two to the 32nd: the wrap modulus of the driver's `u32` arithmetic. -/
def U32 : Nat := 4294967296

namespace LineStatus

/-- `LineStatus::RDR` — receiver data ready (bit 0 of `UART_LSR_0`). -/
def RDR : Nat := 1

/-- `LineStatus::THRE` — transmit holding register empty (bit 5 of `UART_LSR_0`). -/
def THRE : Nat := 32

/-- `LineStatus::TMTY` — transmit shift register empty (bit 6 of `UART_LSR_0`). -/
def TMTY : Nat := 64

end LineStatus

namespace VendorStatus

/-- `VendorStatus::UART_TX_IDLE` — bit 0 of `UART_VENDOR_STATUS_0_0`. -/
def UART_TX_IDLE : Nat := 1

/-- `VendorStatus::UART_RX_IDLE` — bit 1 of `UART_VENDOR_STATUS_0_0`. -/
def UART_RX_IDLE : Nat := 2

end VendorStatus

namespace LineControl

/-- `LineControl::WORD_LENGTH_8` — 8-bit words (low two bits of `UART_LCR_0`). -/
def WORD_LENGTH_8 : Nat := 3

/-- `LineControl::DLAB` — divisor latch access bit (bit 7 of `UART_LCR_0`). -/
def DLAB : Nat := 128

end LineControl

namespace FifoControl

/-- `FifoControl::FCR_EN_FIFO` — FIFO enable (bit 0 of `UART_IIR_FCR_0`). -/
def FCR_EN_FIFO : Nat := 1

/-- `FifoControl::RX_CLR` — clear the receive FIFO (bit 1). -/
def RX_CLR : Nat := 2

/-- `FifoControl::TX_CLR` — clear the transmit FIFO (bit 2). -/
def TX_CLR : Nat := 4

end FifoControl

/-- The UART register block (`Registers` in the source): one 32-bit value per
named register, each modelled as a `Nat` below `U32`. -/
structure RegState where
  THR_DLAB : Nat
  IER_DLAB : Nat
  IIR_FCR : Nat
  LCR : Nat
  MCR : Nat
  LSR : Nat
  MSR : Nat
  SPR : Nat
  IRDA_CSR : Nat
  RX_FIFO_CFG : Nat
  MIE : Nat
  VENDOR_STATUS : Nat
  ASR : Nat
deriving DecidableEq, Repr

/-- An all-zero register block, a convenient concrete starting state. -/
def zeroRegs : RegState :=
  { THR_DLAB := 0, IER_DLAB := 0, IIR_FCR := 0, LCR := 0, MCR := 0, LSR := 0,
    MSR := 0, SPR := 0, IRDA_CSR := 0, RX_FIFO_CFG := 0, MIE := 0,
    VENDOR_STATUS := 0, ASR := 0 }

/-- A register block whose line-status register has the RDR, THRE and TMTY
bits set, so that every poll loop of the driver completes immediately. -/
def readyRegs : RegState := { zeroRegs with LSR := 97 }

/-- The baud-rate divisor computed by `Uart::init`
(`(8 * baud + 408_000_000) / (16 * baud)` in `u32` arithmetic). -/
def baudRateDivisor (baud : Nat) : Nat :=
  ((8 * baud) % U32 + 408000000) % U32 / ((16 * baud) % U32)

/-- The microsecond duration passed to `usleep` by `Uart::wait_cycles`
(`(amount * 1_000_000 + 16 * baud - 1) / (16 * baud)` in `u32` arithmetic,
with wrapping subtraction). -/
def waitCyclesDuration (baud amount : Nat) : Nat :=
  (((amount * 1000000) % U32 + (16 * baud) % U32) % U32 + U32 - 1) % U32
    / ((16 * baud) % U32)

/-- The microsecond duration passed to `usleep` by `Uart::wait_symbols`
(`(amount * 1_000_000 + baud - 1) / baud` in `u32` arithmetic, with wrapping
subtraction). -/
def waitSymbolsDuration (baud amount : Nat) : Nat :=
  (((amount * 1000000) % U32 + baud) % U32 + U32 - 1) % U32 / baud

/-- The spec's `ceil(a / b)` on naturals: the exact quotient when `b` divides
`a`, and one more than the truncated quotient otherwise. -/
def specCeilDiv (a b : Nat) : Nat := a / b + if a % b = 0 then 0 else 1

/-- `Uart::wait_idle` on a static register backend.  The first loop runs when
the `status` argument contains `UART_TX_IDLE` and polls the `TMTY` bit of
`LSR`; the second runs when `status` contains `UART_RX_IDLE` and polls the
`RDR` bit of `LSR`.  Against static registers the call returns iff each
entered loop sees its bit set. -/
def waitIdleCompletes (status : Nat) (s : RegState) : Bool :=
  (status &&& VendorStatus.UART_TX_IDLE == 0 || s.LSR &&& LineStatus.TMTY != 0) &&
  (status &&& VendorStatus.UART_RX_IDLE == 0 || s.LSR &&& LineStatus.RDR != 0)

/-- The `status` argument of the final `wait_idle` call in `Uart::init`
(`UART_TX_IDLE | UART_RX_IDLE`). -/
def initFinalWaitStatus : Nat :=
  VendorStatus.UART_TX_IDLE ||| VendorStatus.UART_RX_IDLE

/-- The claim's reading of the final wait, following the spec's words: both
the TX-idle and the RX-idle bits of the `VENDOR_STATUS` register are set. -/
def specVendorBothIdle (s : RegState) : Bool :=
  (s.VENDOR_STATUS &&& VendorStatus.UART_TX_IDLE != 0) &&
  (s.VENDOR_STATUS &&& VendorStatus.UART_RX_IDLE != 0)

/-- `Uart::wait_transmit` on a static register backend: the loop polls the
`THRE` bit of `LSR` and returns iff it is set. -/
def waitTransmitCompletes (s : RegState) : Bool :=
  s.LSR &&& LineStatus.THRE != 0

/-- `Uart::init` as a transformer of the register block, against a RAM-backed
fake backend: a register read returns the value last written (its initial
value in `s` if never written), poll loops and `usleep` do not touch the
block, and `clock.enable` is an external collaborator with no effect on it.
The write sequence, in source order: 0 to `IER_DLAB`; 0 to `MCR`;
`DLAB | WORD_LENGTH_8` to `LCR`; the divisor to `THR_DLAB`; the divisor
shifted right by 8 to `IER_DLAB`; `LCR & !DLAB` (a read-modify-write) to
`LCR`; `FCR_EN_FIFO` to `IIR_FCR`; and `IIR_FCR | (RX_CLR | TX_CLR)`
(a read-modify-write) to `IIR_FCR`.  The `SPR` dummy reads change nothing. -/
def init (baud : Nat) (s : RegState) : RegState :=
  let d := baudRateDivisor baud
  let s1 := { s with IER_DLAB := 0 }
  let s2 := { s1 with MCR := 0 }
  let s3 := { s2 with LCR := LineControl.DLAB ||| LineControl.WORD_LENGTH_8 }
  let s4 := { s3 with THR_DLAB := d }
  let s5 := { s4 with IER_DLAB := d >>> 8 }
  let s6 := { s5 with LCR := s5.LCR &&& (U32 - 1 - LineControl.DLAB) }
  let s7 := { s6 with IIR_FCR := FifoControl.FCR_EN_FIFO }
  let s8 := { s7 with IIR_FCR :=
    s7.IIR_FCR ||| (FifoControl.RX_CLR ||| FifoControl.TX_CLR) }
  s8

/-- One of the thirteen registers of the block, used to record write events. -/
inductive Reg
  | THR_DLAB | IER_DLAB | IIR_FCR | LCR | MCR | LSR | MSR | SPR
  | IRDA_CSR | RX_FIFO_CFG | MIE | VENDOR_STATUS | ASR
deriving DecidableEq, Repr

/-- A single MMIO write: which register was written and with what value. -/
structure WriteEvent where
  reg : Reg
  value : Nat
deriving DecidableEq, Repr

/-- `Uart::write_byte`: `wait_transmit` (a read-only poll of `LSR`), then a
single write of `u32::from(byte)` to `THR_DLAB`.  Returns the updated block
together with the list of register writes the call performs. -/
def write_byte (b : Nat) (s : RegState) : RegState × List WriteEvent :=
  ({ s with THR_DLAB := b }, [⟨Reg.THR_DLAB, b⟩])

/-- The byte-writing phase of `Write::write_str` for `Uart`: `write_byte` on
each byte in order.  The trailing `wait_transmit` of `write_str` performs no
writes; its poll condition is `waitTransmitCompletes`. -/
def write_str (bs : List Nat) (s : RegState) : RegState × List WriteEvent :=
  match bs with
  | [] => (s, [])
  | b :: rest =>
    let p := write_byte b s
    let q := write_str rest p.1
    (q.1, p.2 ++ q.2)

/-- `Uart::write_byte` against a full-duplex loopback fake backend, whose
state is the queue of bytes written to `THR_DLAB` and not yet read back,
oldest first: the `THRE` poll always succeeds there, and the `THR_DLAB`
write enqueues `u32::from(byte)`. -/
def writeByteLoop (b : Nat) (f : List Nat) : List Nat := f ++ [b]

/-- The byte loop of `Write::write_str` against the loopback backend (the
trailing `wait_transmit` does not touch the queue). -/
def writeBytesLoop (bs : List Nat) (f : List Nat) : List Nat :=
  bs.foldl (fun acc b => writeByteLoop b acc) f

/-- `Uart::read_byte` against the loopback backend: `wait_receive` returns
once data is available (never, if the queue is empty — `none` models that
the call would block forever), then the `THR_DLAB` read dequeues the oldest
byte, truncated to a `u8` by the `as u8` cast. -/
def readByteLoop : List Nat → Option (Nat × List Nat)
  | [] => none
  | b :: rest => some (b % 256, rest)

/-- `Uart::read` into a buffer of length `n` against the loopback backend:
`read_byte` once per slot, in order. -/
def readBytesLoop : Nat → List Nat → Option (List Nat × List Nat)
  | 0, f => some ([], f)
  | n + 1, f =>
    match readByteLoop f with
    | none => none
    | some (b, rest) =>
      match readBytesLoop n rest with
      | none => none
      | some (bs, rest2) => some (b :: bs, rest2)

/-- Dividing `a + b - 1` by `b` computes the ceiling of `a / b`. -/
theorem pred_div_eq_specCeilDiv (a b : Nat) (hb : 0 < b) :
    (a + b - 1) / b = specCeilDiv a b := by
  have hdm := Nat.div_add_mod a b
  have hlt := Nat.mod_lt a hb
  unfold specCeilDiv
  by_cases h : a % b = 0
  · have h1 : a + b - 1 = b * (a / b) + (b - 1) := by omega
    rw [h1, Nat.mul_add_div hb,
      Nat.div_eq_of_lt (show b - 1 < b by omega), if_pos h]
  · have hexp : b * (a / b + 1) = b * (a / b) + b := by ring
    have h1 : a + b - 1 = b * (a / b + 1) + (a % b - 1) := by omega
    rw [h1, Nat.mul_add_div hb,
      Nat.div_eq_of_lt (show a % b - 1 < b by omega), if_neg h]

/-- Wrapping `u32` subtraction of 1 from a wrapped positive sum recovers the
exact predecessor when the sum does not exceed `2^32`. -/
theorem wrap_pred_mod (x : Nat) (h1 : 0 < x) (h2 : x ≤ U32) :
    (x % U32 + U32 - 1) % U32 = x - 1 := by
  have hU : U32 = 4294967296 := rfl
  rcases Nat.lt_or_ge x U32 with hlt | hge
  · rw [Nat.mod_eq_of_lt hlt, show x + U32 - 1 = U32 + (x - 1) by omega,
      Nat.add_mod_left, Nat.mod_eq_of_lt (by omega)]
  · have hx : x = U32 := by omega
    subst hx
    rw [Nat.mod_self, show 0 + U32 - 1 = U32 - 1 by omega,
      Nat.mod_eq_of_lt (by omega)]

/-- C1: for every baud rate between 300 and 12,500,000 the divisor computed
by `Uart::init` equals `(8 * b + 408_000_000) / (16 * b)` under exact
truncating natural division — the `u32` arithmetic never wraps in this range,
so the closed-form formula holds with no off-by-one in rounding direction. -/
theorem divisor_closed_form (b : Nat) (h1 : 300 ≤ b) (h2 : b ≤ 12500000) :
    baudRateDivisor b = (8 * b + 408000000) / (16 * b) := by
  have hU : U32 = 4294967296 := rfl
  unfold baudRateDivisor
  rw [Nat.mod_eq_of_lt (by omega : 8 * b < U32),
      Nat.mod_eq_of_lt (by omega : 8 * b + 408000000 < U32),
      Nat.mod_eq_of_lt (by omega : 16 * b < U32)]

/-- Witness for C1 at baud rate 115,200. -/
theorem divisor_closed_form_witness :
    300 ≤ 115200 ∧ 115200 ≤ 12500000 ∧
      baudRateDivisor 115200 = (8 * 115200 + 408000000) / (16 * 115200) :=
  ⟨by decide, by decide, divisor_closed_form 115200 (by decide) (by decide)⟩

/-- C5 counterexample: the duration `Uart::wait_cycles` sleeps at
`(baud, amount) = (9600, 32)` is 209 microseconds, not the 3334 microseconds
the claim asserts. -/
theorem wait_cycles_9600_32_cex :
    waitCyclesDuration 9600 32 = 209 ∧ (209 : Nat) ≠ 3334 :=
  ⟨by decide, by decide⟩

/-- C5 (amended): whenever the `u32` arithmetic does not wrap, the duration
of `Uart::wait_cycles` is `ceil(n * 1_000_000 / (16 * baud))` microseconds;
in particular `wait_cycles(9600, 32)` sleeps 209 microseconds. -/
theorem wait_cycles_ceil :
    (∀ baud n, 0 < baud → 16 * baud < U32 → n * 1000000 + 16 * baud ≤ U32 →
      waitCyclesDuration baud n = specCeilDiv (n * 1000000) (16 * baud)) ∧
    waitCyclesDuration 9600 32 = 209 := by
  constructor
  · intro baud n h1 h2 h3
    have hU : U32 = 4294967296 := rfl
    unfold waitCyclesDuration
    rw [Nat.mod_eq_of_lt (by omega : n * 1000000 < U32),
        Nat.mod_eq_of_lt h2,
        wrap_pred_mod (n * 1000000 + 16 * baud) (by omega) h3]
    exact pred_div_eq_specCeilDiv (n * 1000000) (16 * baud) (by omega)
  · decide

/-- Witness for (the amended) C5 at `(baud, amount) = (9600, 32)`. -/
theorem wait_cycles_ceil_witness :
    waitCyclesDuration 9600 32 = specCeilDiv (32 * 1000000) (16 * 9600) :=
  wait_cycles_ceil.1 9600 32 (by decide) (by decide) (by decide)

/-- C6 (amended): whenever the `u32` arithmetic does not wrap,
`Uart::wait_symbols` sleeps `ceil(n * 1_000_000 / baud)` microseconds, the
duration is monotone in the symbol count within that range, and
`wait_symbols(9600, 3)` sleeps 313 microseconds. -/
theorem wait_symbols_ceil :
    (∀ baud n, 0 < baud → n * 1000000 + baud ≤ U32 →
      waitSymbolsDuration baud n = specCeilDiv (n * 1000000) baud) ∧
    (∀ baud m n, 0 < baud → m ≤ n → n * 1000000 + baud ≤ U32 →
      waitSymbolsDuration baud m ≤ waitSymbolsDuration baud n) ∧
    waitSymbolsDuration 9600 3 = 313 := by
  have hU : U32 = 4294967296 := rfl
  have key : ∀ baud n, 0 < baud → n * 1000000 + baud ≤ U32 →
      waitSymbolsDuration baud n = (n * 1000000 + baud - 1) / baud := by
    intro baud n h1 h2
    unfold waitSymbolsDuration
    rw [Nat.mod_eq_of_lt (by omega : n * 1000000 < U32),
        wrap_pred_mod (n * 1000000 + baud) (by omega) h2]
  refine ⟨?_, ?_, by decide⟩
  · intro baud n h1 h2
    rw [key baud n h1 h2]
    exact pred_div_eq_specCeilDiv (n * 1000000) baud h1
  · intro baud m n h1 hmn h2
    rw [key baud m h1 (by omega), key baud n h1 h2]
    exact Nat.div_le_div_right (by omega)

/-- C6 counterexample: at `(baud, amount) = (9600, 4295)` the `u32` product
`amount * 1_000_000` wraps, so `Uart::wait_symbols` sleeps 4 microseconds
instead of the claimed ceiling 447,396, and the duration is not monotone in
the count: at 4294 symbols it sleeps 447,292 microseconds, at 4295 only 4. -/
theorem wait_symbols_overflow_cex :
    waitSymbolsDuration 9600 4295 = 4 ∧
      specCeilDiv (4295 * 1000000) 9600 = 447396 ∧
      waitSymbolsDuration 9600 4295 ≠ specCeilDiv (4295 * 1000000) 9600 ∧
      waitSymbolsDuration 9600 4294 = 447292 ∧
      ¬ waitSymbolsDuration 9600 4294 ≤ waitSymbolsDuration 9600 4295 :=
  ⟨by decide, by decide, by decide, by decide, by decide⟩

/-- Witness for (the amended) C6 at `(baud, amount) = (9600, 3)` and its
monotone step. -/
theorem wait_symbols_ceil_witness :
    waitSymbolsDuration 9600 3 = specCeilDiv (3 * 1000000) 9600 ∧
      waitSymbolsDuration 9600 2 ≤ waitSymbolsDuration 9600 3 :=
  ⟨wait_symbols_ceil.1 9600 3 (by decide) (by decide),
   wait_symbols_ceil.2.1 9600 2 3 (by decide) (by decide) (by decide)⟩

/-- A register state whose line-status TMTY and RDR bits are set while both
vendor-status idle bits are clear. -/
def vendorCexRegs : RegState := { zeroRegs with LSR := 65 }

/-- C2 counterexample: at `vendorCexRegs` the final `wait_idle` call of
`Uart::init` completes although neither vendor-status idle bit is set, so
completing initialization does not require the TX-idle and RX-idle
vendor-status bits to hold. -/
theorem init_final_wait_vendor_cex :
    waitIdleCompletes initFinalWaitStatus vendorCexRegs = true ∧
      specVendorBothIdle vendorCexRegs = false :=
  ⟨by decide, by decide⟩

/-- C2 (amended): the final wait of `Uart::init` polls the line-status
register, not the vendor-status register: run against a static backend it
completes precisely when both the TMTY (transmit shift register empty) and
RDR (receiver data ready) bits of LSR are set, the two poll loops running
one after the other rather than checking one combined condition. -/
theorem init_final_wait_line_status (s : RegState) :
    waitIdleCompletes initFinalWaitStatus s = true ↔
      (s.LSR &&& LineStatus.TMTY ≠ 0 ∧ s.LSR &&& LineStatus.RDR ≠ 0) := by
  simp [waitIdleCompletes, initFinalWaitStatus, VendorStatus.UART_TX_IDLE,
    VendorStatus.UART_RX_IDLE]

/-- A register state whose line-status THRE bit is set while TMTY is clear:
the transmit holding register is empty but the shift register still drains. -/
def threCexRegs : RegState := { zeroRegs with LSR := 32 }

/-- C3 counterexample: the final wait of `write_str` (`Uart::wait_transmit`)
returns at `threCexRegs` although the transmit-shift-empty bit is clear, so
its poll condition is the THRE bit, not the TMTY bit, and it does not
guarantee the bytes are fully on the wire. -/
theorem write_bytes_final_wait_cex :
    waitTransmitCompletes threCexRegs = true ∧
      threCexRegs.LSR &&& LineStatus.TMTY = 0 :=
  ⟨by decide, by decide⟩

/-- C3 (amended): `write_str` applies `write_byte` to each byte in order —
its register writes are exactly one THR_DLAB write per byte, in sequence —
and then performs one additional wait whose poll condition is the THRE
(transmit-holding-empty) line-status bit, which guarantees the bytes are
queued to the transmitter, not that the shift register has drained. -/
theorem write_bytes_order_and_thre (bs : List Nat) (s : RegState) :
    (write_str bs s).2 = bs.map (fun b => (⟨Reg.THR_DLAB, b⟩ : WriteEvent)) ∧
      (∀ t : RegState, waitTransmitCompletes t = true ↔
        t.LSR &&& LineStatus.THRE ≠ 0) := by
  constructor
  · induction bs generalizing s with
    | nil => rfl
    | cons b rest ih => simp [write_str, write_byte, ih]
  · intro t
    simp [waitTransmitCompletes]

/-- C4 counterexample: at baud rate 9600 the computed divisor is 2656, and
the value `Uart::init` writes to the first (divisor-low) register while DLAB
is set — still held there afterwards, since nothing overwrites it — is the
full divisor 2656, not its low 8 bits 96. -/
theorem divisor_write_low_byte_cex :
    (init 9600 zeroRegs).THR_DLAB = 2656 ∧
      baudRateDivisor 9600 % 256 = 96 ∧
      (init 9600 zeroRegs).THR_DLAB ≠ baudRateDivisor 9600 % 256 :=
  ⟨by decide, by decide, by decide⟩

/-- C4 (amended): while DLAB is set, `Uart::init` writes the full computed
divisor to the first register and the divisor shifted right by 8 bits to the
second, and those values persist to the end of initialization; they coincide
with the low and high 8 bits of the divisor only when the divisor fits the
corresponding width. -/
theorem divisor_writes_full_value (baud : Nat) (s : RegState)
    (hbaud : 0 < baud) :
    (init baud s).THR_DLAB = baudRateDivisor baud ∧
      (init baud s).IER_DLAB = baudRateDivisor baud >>> 8 :=
  ⟨rfl, rfl⟩

/-- Witness for (the amended) C4 at baud rate 9600. -/
theorem divisor_writes_full_value_witness :
    (init 9600 zeroRegs).THR_DLAB = baudRateDivisor 9600 ∧
      (init 9600 zeroRegs).IER_DLAB = baudRateDivisor 9600 >>> 8 :=
  divisor_writes_full_value 9600 zeroRegs (by decide)

/-- C7: for every baud rate, when `Uart::init` runs against a fake register
backend whose static status bits (TMTY for the TX-idle waits, RDR for the
final wait's RX loop) let every poll loop complete, the final state has the
DLAB bit of the line-control register clear and the FIFO-enable bit of the
FIFO-control register set. -/
theorem init_dlab_clear_fifo_enabled (baud : Nat) (s : RegState)
    (hbaud : 0 < baud) (htx : s.LSR &&& LineStatus.TMTY ≠ 0)
    (hrx : s.LSR &&& LineStatus.RDR ≠ 0) :
    (init baud s).LCR &&& LineControl.DLAB = 0 ∧
      (init baud s).IIR_FCR &&& FifoControl.FCR_EN_FIFO = 1 := by
  have hl : (init baud s).LCR = (LineControl.DLAB ||| LineControl.WORD_LENGTH_8)
      &&& (U32 - 1 - LineControl.DLAB) := rfl
  have hf : (init baud s).IIR_FCR = FifoControl.FCR_EN_FIFO
      ||| (FifoControl.RX_CLR ||| FifoControl.TX_CLR) := rfl
  refine ⟨?_, ?_⟩
  · rw [hl]; decide
  · rw [hf]; decide

/-- Witness for C7 at baud rate 115,200 from `readyRegs`. -/
theorem init_dlab_clear_fifo_enabled_witness :
    (init 115200 readyRegs).LCR &&& LineControl.DLAB = 0 ∧
      (init 115200 readyRegs).IIR_FCR &&& FifoControl.FCR_EN_FIFO = 1 :=
  init_dlab_clear_fifo_enabled 115200 readyRegs (by decide) (by decide)
    (by decide)

/-- C8: `Uart::init` is idempotent on the observable line configuration: run
twice in a row with the same baud rate, the divisor-low and divisor-high
registers hold the same values after the second run as after the first. -/
theorem init_idempotent_divisor (baud : Nat) (s : RegState)
    (hbaud : 0 < baud) :
    (init baud (init baud s)).THR_DLAB = (init baud s).THR_DLAB ∧
      (init baud (init baud s)).IER_DLAB = (init baud s).IER_DLAB := by
  have h1 : ∀ t : RegState, (init baud t).THR_DLAB = baudRateDivisor baud :=
    fun t => rfl
  have h2 : ∀ t : RegState,
      (init baud t).IER_DLAB = baudRateDivisor baud >>> 8 :=
    fun t => rfl
  exact ⟨by rw [h1, h1], by rw [h2, h2]⟩

/-- Witness for C8 at baud rate 115,200 from `readyRegs`. -/
theorem init_idempotent_divisor_witness :
    (init 115200 (init 115200 readyRegs)).THR_DLAB
        = (init 115200 readyRegs).THR_DLAB ∧
      (init 115200 (init 115200 readyRegs)).IER_DLAB
        = (init 115200 readyRegs).IER_DLAB :=
  init_idempotent_divisor 115200 readyRegs (by decide)

/-- The write_str byte loop only appends to the loopback queue. -/
theorem writeBytesLoop_append (bs : List Nat) (f : List Nat) :
    writeBytesLoop bs f = f ++ bs := by
  induction bs generalizing f with
  | nil => simp [writeBytesLoop]
  | cons b rest ih =>
    show writeBytesLoop rest (writeByteLoop b f) = _
    rw [ih]
    simp [writeByteLoop]

/-- Reading back exactly the queue's length returns the queue (each byte
re-truncated by the `as u8` cast) and leaves it empty. -/
theorem readBytesLoop_self (bs : List Nat) (hb : ∀ b ∈ bs, b < 256) :
    readBytesLoop bs.length bs = some (bs, []) := by
  induction bs with
  | nil => rfl
  | cons b rest ih =>
    have hb1 : b < 256 := hb b (by simp)
    have hrest := ih (fun x hx => hb x (by simp [hx]))
    simp [readBytesLoop, readByteLoop, hrest, Nat.mod_eq_of_lt hb1]

/-- C9: round trip over the full-duplex loopback backend: writing any byte
sequence via the write_str loop and then reading back the same number of
bytes yields the original sequence unchanged (and drains the queue). -/
theorem loopback_round_trip (bs : List Nat) (hb : ∀ b ∈ bs, b < 256) :
    readBytesLoop bs.length (writeBytesLoop bs []) = some (bs, []) := by
  rw [writeBytesLoop_append, List.nil_append]
  exact readBytesLoop_self bs hb

/-- Witness for C9 on the byte sequence `[65, 66, 67]` (ASCII `ABC`). -/
theorem loopback_round_trip_witness :
    readBytesLoop 3 (writeBytesLoop [65, 66, 67] []) = some ([65, 66, 67], []) :=
  loopback_round_trip [65, 66, 67] (by decide)

/-- C10: `Uart::write_byte` performs exactly one register write — to
THR_DLAB, with the byte zero-extended to 32 bits — and leaves every other
register of the block unchanged (`wait_transmit` only reads LSR; the THRE
hypothesis is what lets that poll, and hence the call, return). -/
theorem write_byte_single_write_frame (b : Nat) (s : RegState)
    (hb : b < 256) (hready : waitTransmitCompletes s = true) :
    (write_byte b s).2 = [⟨Reg.THR_DLAB, b⟩] ∧
      (write_byte b s).1.THR_DLAB = b ∧
      (write_byte b s).1.IER_DLAB = s.IER_DLAB ∧
      (write_byte b s).1.IIR_FCR = s.IIR_FCR ∧
      (write_byte b s).1.LCR = s.LCR ∧
      (write_byte b s).1.MCR = s.MCR ∧
      (write_byte b s).1.LSR = s.LSR ∧
      (write_byte b s).1.MSR = s.MSR ∧
      (write_byte b s).1.SPR = s.SPR ∧
      (write_byte b s).1.IRDA_CSR = s.IRDA_CSR ∧
      (write_byte b s).1.RX_FIFO_CFG = s.RX_FIFO_CFG ∧
      (write_byte b s).1.MIE = s.MIE ∧
      (write_byte b s).1.VENDOR_STATUS = s.VENDOR_STATUS ∧
      (write_byte b s).1.ASR = s.ASR :=
  ⟨rfl, rfl, rfl, rfl, rfl, rfl, rfl, rfl, rfl, rfl, rfl, rfl, rfl, rfl⟩

/-- Witness for C10 writing byte 65 from `readyRegs`. -/
theorem write_byte_single_write_frame_witness :
    (write_byte 65 readyRegs).2 = [⟨Reg.THR_DLAB, 65⟩] ∧
      (write_byte 65 readyRegs).1.THR_DLAB = 65 ∧
      (write_byte 65 readyRegs).1.LCR = readyRegs.LCR :=
  ⟨(write_byte_single_write_frame 65 readyRegs (by decide) (by decide)).1,
   (write_byte_single_write_frame 65 readyRegs (by decide) (by decide)).2.1,
   (write_byte_single_write_frame 65 readyRegs (by decide) (by decide)).2.2.2.2.1⟩

end Uart
